import Mathlib

/-!
Shallow embedding of `src/port_scanner.py` (AtaBahari/python_port_scanner).

The embedding covers the three functions the verified claims are about:

* `parse_ports_input` (source lines 196-227): parsing a port specification
  string such as `"22,80,8000-8100"` into `sorted(set(ports))`, or `None`
  on invalid input;
* `scan_port` (source lines 71-79): one TCP connect attempt, classified
  open/closed, never propagating an exception;
* `run_scan` (source lines 123-193): the concurrent scan engine built on
  `ThreadPoolExecutor` / `as_completed`, aggregating per-port outcomes in
  completion order, with optional persistence.

Effects are made explicit: the network's behaviour is a `ConnectResult`
oracle, and the scheduler's completion order, a mid-run `KeyboardInterrupt`
and the success of the output-file write are fields of a `ScanEnv` record.
Machine integers are `Nat`/`Int` (Python ints are unbounded, so no wrapping
is involved anywhere). Strings are handled as their character lists so that
every definition evaluates by kernel reduction.

The Python `set` of ports is modelled as a duplicate-free list accumulator
(`setAdd` ignores an element already present); `sorted(...)` is
`List.insertionSort (· ≤ ·)`. These have exactly the observable behaviour
of `sorted(set(...))`: the result is the ascending enumeration of the
distinct elements added.
-/

namespace PortScanner

/-! Python string/number primitives used by the source -/

/-- The whitespace characters stripped by Python's `str.strip()` (ASCII
subset: space, tab, newline, carriage return, vertical tab, form feed). -/
def isPySpace (c : Char) : Bool :=
  c = ' ' || c = '\t' || c = '\n' || c = '\r' || c = '\x0b' || c = '\x0c'

/-- Python `str.strip()`: drop leading and trailing whitespace. -/
def pyStrip (s : List Char) : List Char :=
  ((s.dropWhile isPySpace).reverse.dropWhile isPySpace).reverse

/-- Python `s.split(sep)` for a one-character separator, on character
lists: `"".split(",") = [""]`, `"a,,b".split(",") = ["a", "", "b"]`. -/
def splitList (sep : Char) : List Char → List (List Char)
  | [] => [[]]
  | c :: cs =>
    if c = sep then [] :: splitList sep cs
    else
      match splitList sep cs with
      | [] => [[c]]
      | g :: gs => (c :: g) :: gs

/-- Python `s.split(sep, 1)` for a one-character separator: the part
before the first occurrence of `sep` and the part after it (the source
only uses this on strings that contain `sep`). -/
def splitOnceList (sep : Char) : List Char → List Char × List Char
  | [] => ([], [])
  | c :: cs =>
    if c = sep then ([], cs)
    else ((splitOnceList sep cs).1.cons c, (splitOnceList sep cs).2)

/-- Digit-sequence part of Python `int(str)`: ASCII digits, where a single
underscore may stand between two digits (`"1_000"`), never leading,
trailing or doubled. Accumulates the value; `none` on any other char. -/
def pyDigitsAux (acc : ℕ) : List Char → Option ℕ
  | [] => some acc
  | c :: cs =>
    if c.isDigit then pyDigitsAux (10 * acc + (c.toNat - 48)) cs
    else if c = '_' then
      match cs with
      | [] => none
      | d :: cs2 =>
        if d.isDigit then pyDigitsAux (10 * acc + (d.toNat - 48)) cs2 else none
    else none

/-- A nonempty digit sequence must start with a digit (not an underscore). -/
def pyDigits (cs : List Char) : Option ℕ :=
  match cs with
  | [] => none
  | c :: _ => if c.isDigit then pyDigitsAux 0 cs else none

/-- Python `int(str)`: strip surrounding whitespace, optional `+`/`-` sign,
then a digit sequence. `none` models the `ValueError` the source catches. -/
def pyInt (s : List Char) : Option ℤ :=
  match pyStrip s with
  | '+' :: rest => (pyDigits rest).map (fun n => (n : ℤ))
  | '-' :: rest => (pyDigits rest).map (fun n => -(n : ℤ))
  | cs => (pyDigits cs).map (fun n => (n : ℤ))

/-! `parse_ports_input` (source lines 196-227) -/

/-- `ports.add(p)` on the duplicate-free list model of the Python `set`:
keep the accumulator unchanged when `p` is already present. -/
def setAdd (acc : List ℕ) (p : ℕ) : List ℕ :=
  if p ∈ acc then acc else acc ++ [p]

/-- One stripped, nonempty token of the specification, following the
source body exactly:

* a token containing `-` is split once at `-`; both halves go through
  `int(...)`; the range is rejected when `a < 1 or b > 65535 or a > b`,
  and otherwise every port of `range(a, b + 1)` is added;
* any other token goes through `int(...)` and is added iff
  `1 <= p <= 65535`.

`none` models `return None` of the source (which also absorbs the
`ValueError` of a failed `int(...)`). -/
def tokenPorts (acc : List ℕ) (part : List Char) : Option (List ℕ) :=
  if part.contains '-' then
    match pyInt (splitOnceList '-' part).1, pyInt (splitOnceList '-' part).2 with
    | some a, some b =>
      if a < 1 ∨ b > 65535 ∨ a > b then none
      else some ((List.range' a.toNat (b.toNat + 1 - a.toNat)).foldl setAdd acc)
    | _, _ => none
  else
    match pyInt part with
    | some p => if 1 ≤ p ∧ p ≤ 65535 then some (setAdd acc p.toNat) else none
    | none => none

/-- The loop `for part in spec.split(",")` of the source: strip each token,
skip empty tokens (`if not part: continue`), abort the whole parse on the
first invalid token, and accumulate the port set. -/
def parseTokens : List (List Char) → List ℕ → Option (List ℕ)
  | [], acc => some acc
  | t :: ts, acc =>
    if pyStrip t = [] then parseTokens ts acc
    else
      match tokenPorts acc (pyStrip t) with
      | none => none
      | some acc2 => parseTokens ts acc2

/-- `parse_ports_input(spec)` (source lines 196-227): `None` on empty/falsy
input, otherwise the tokens of `spec.split(",")` are folded into a set and
the result is `sorted(ports)`. -/
def parse_ports_input (spec : String) : Option (List ℕ) :=
  if spec.data = [] then none
  else (parseTokens (splitList ',' spec.data) []).map (List.insertionSort (· ≤ ·))

/-! `scan_port` (source lines 71-79)

The network is an oracle: one connect attempt either returns the
`connect_ex` error code (`0` means the TCP connection succeeded within the
timeout) or raises, which the source catches with `except Exception`. -/

/-- What `s.connect_ex((host_ip, port))` does on one invocation. -/
inductive ConnectResult where
  | code (n : ℤ)
  | exn
deriving DecidableEq

/-- The network environment: the behaviour of a connect attempt as a
function of host address, port and timeout. -/
structure Net where
  connect : String → ℕ → ℚ → ConnectResult

/-- `scan_port(host_ip, port, timeout)` (source lines 71-79): returns
`(port, result == 0)` when `connect_ex` returns code `result`, and
`(port, False)` when anything raises. Totality of this Lean function is
the source's guarantee that no exception escapes: every branch, the
`except` one included, produces a pair. -/
def scan_port (net : Net) (host_ip : String) (port : ℕ) (timeout : ℚ) : ℕ × Bool :=
  match net.connect host_ip port timeout with
  | .code n => (port, n = 0)
  | .exn => (port, false)

/-! `run_scan` (source lines 123-193)

The worker pool and `as_completed` are modelled by an explicit completion
sequence: `arrivals` lists, in completion order, the port each future was
submitted for together with what `future.result()` does (its value, or an
exception caught by the inner `except`). A mid-run `KeyboardInterrupt` is
`interrupt = some k`: it strikes after `k` completions were processed.
`writeOk` tells whether opening/writing the output file succeeds. -/

/-- What `future.result()` does for one completed future: the pair
returned by `scan_port`, or a raised exception (caught by the inner
`try/except` of the aggregation loop). -/
inductive ProbeRes where
  | ok (port : ℕ) (is_open : Bool)
  | exn
deriving DecidableEq

/-- The scheduling/filesystem environment of one `run_scan` call. -/
structure ScanEnv where
  arrivals : List (ℕ × ProbeRes)
  interrupt : Option ℕ
  writeOk : Bool
deriving DecidableEq

/-- One record of the `results` list (source lines 157-163). The
`scanned_at` timestamp of `datetime.now().isoformat()` is modelled as the
index of the completion that produced the record. -/
structure OutcomeRow where
  host : String
  ip : String
  port : ℕ
  status : String
  scanned_at : ℕ
deriving DecidableEq

/-- What became of the `save_path` request (source lines 174-192): the
rows were written, or `open`/`write` raised and the failure was reported
(`"[!] Failed to write output file"`) without touching the results. -/
inductive SaveOutcome where
  | saved (path : String) (rows : List OutcomeRow)
  | failed (path : String)
deriving DecidableEq

/-- The observable state of one `run_scan` call: the returned list of open
ports, the in-memory `results` accumulator, and the fate of the requested
save. The Python function's return value is the `open_ports` field. -/
structure ScanRun where
  open_ports : List ℕ
  results : List OutcomeRow
  save : Option SaveOutcome
deriving DecidableEq

/-- `max_workers = min(max(1, threads), total)` (source line 139): the
bound handed to `ThreadPoolExecutor`. -/
def max_workers (threads total : ℕ) : ℕ :=
  min (max 1 threads) total

/-- The body of `for future in as_completed(future_map)` (source lines
144-163), processing completions in arrival order: read the result (or
normalize an exception to `closed` for the submitted port `p`), print and
append the port when open, and append one record to `results`. `t` is the
completion index used as the `scanned_at` timestamp. -/
def scanLoop (target_ip : String) :
    List (ℕ × ProbeRes) → List ℕ → List OutcomeRow → ℕ → List ℕ × List OutcomeRow
  | [], opens, results, _ => (opens, results)
  | (p, r) :: rest, opens, results, t =>
    let pr : ℕ × String :=
      match r with
      | .ok port is_open => (port, if is_open then "open" else "closed")
      | .exn => (p, "closed")
    scanLoop target_ip rest
      (if pr.2 = "open" then opens ++ [pr.1] else opens)
      (results ++ [⟨target_ip, target_ip, pr.1, pr.2, t⟩])
      (t + 1)

/-- The open ports collected from a completion sequence, starting from the
empty accumulators. -/
def opensOf (target_ip : String) (arrivals : List (ℕ × ProbeRes)) : List ℕ :=
  (scanLoop target_ip arrivals [] [] 0).1

/-- `run_scan(target_ip, ports, threads, timeout, save_path)` (source
lines 123-193):

* `if not ports: return []` — empty port list returns at once, before the
  pool is created, no probe invoked, nothing saved;
* otherwise the completions of `env.arrivals` are aggregated by
  `scanLoop`; a `KeyboardInterrupt` after `k` completions makes the
  function return the open ports collected so far (the `except
  KeyboardInterrupt` of lines 164-166), skipping the save;
* on natural completion, `save_path` (when given) is written, and a write
  failure is reported without touching the in-memory results (lines
  174-192); the accumulated `open_ports` list is returned either way. -/
def run_scan (env : ScanEnv) (target_ip : String) (ports : List ℕ)
    (threads : ℕ) (timeout : ℚ) (save_path : Option String) : ScanRun :=
  if ports = [] then ⟨[], [], none⟩
  else
    match env.interrupt with
    | some k =>
      let st := scanLoop target_ip (env.arrivals.take k) [] [] 0
      ⟨st.1, st.2, none⟩
    | none =>
      let st := scanLoop target_ip env.arrivals [] [] 0
      let save : Option SaveOutcome :=
        match save_path with
        | none => none
        | some path => some (if env.writeOk then .saved path st.2 else .failed path)
      ⟨st.1, st.2, save⟩

/-- The port recorded by the aggregation loop for one completion: the
first component of `future.result()`, or the submitted port when the
future raised. -/
def arrivalPort (a : ℕ × ProbeRes) : ℕ :=
  match a.2 with
  | .ok q _ => q
  | .exn => a.1

/-- The completion sequence `as_completed(future_map)` actually delivers:
each submitted port's future completes exactly once (the arrival ports are
a permutation of the submitted ports), and each future's value is what
`scan_port` returned for its port — so the port it reports is the
submitted one. -/
def FaithfulArrivals (ports : List ℕ) (arrivals : List (ℕ × ProbeRes)) : Prop :=
  List.Perm (arrivals.map Prod.fst) ports ∧ ∀ a ∈ arrivals, arrivalPort a = a.1

/-! Lemmas about the port-set accumulator -/

theorem setAdd_nodup {acc : List ℕ} (h : acc.Nodup) (p : ℕ) : (setAdd acc p).Nodup := by
  unfold setAdd
  split
  · exact h
  · next hp =>
      refine List.Nodup.append h (List.nodup_singleton p) ?_
      intro q hq hq1
      rw [List.mem_singleton] at hq1
      exact hp (hq1 ▸ hq)

theorem mem_setAdd {acc : List ℕ} {p q : ℕ} : q ∈ setAdd acc p ↔ q ∈ acc ∨ q = p := by
  unfold setAdd
  split
  · next hp => constructor
               · exact .inl
               · rintro (h | rfl)
                 · exact h
                 · exact hp
  · simp

theorem foldl_setAdd_nodup :
    ∀ (l : List ℕ) (acc : List ℕ), acc.Nodup → (l.foldl setAdd acc).Nodup
  | [], _, h => h
  | p :: l, acc, h => foldl_setAdd_nodup l (setAdd acc p) (setAdd_nodup h p)

theorem mem_foldl_setAdd :
    ∀ (l : List ℕ) (acc : List ℕ) (q : ℕ),
      q ∈ l.foldl setAdd acc ↔ q ∈ acc ∨ q ∈ l := by
  intro l
  induction l with
  | nil => simp
  | cons p l ih =>
    intro acc q
    simp only [List.foldl_cons, ih, mem_setAdd, List.mem_cons]
    tauto

theorem tokenPorts_nodup {acc acc2 : List ℕ} {part : List Char}
    (h : tokenPorts acc part = some acc2) (hn : acc.Nodup) : acc2.Nodup := by
  unfold tokenPorts at h
  split at h
  · split at h
    · split at h
      · exact absurd h (by simp)
      · cases h
        exact foldl_setAdd_nodup _ _ hn
    · exact absurd h (by simp)
  · split at h
    · rename_i x p heq
      by_cases hp : 1 ≤ p ∧ p ≤ 65535
      · rw [if_pos hp] at h
        cases h
        exact setAdd_nodup hn _
      · rw [if_neg hp] at h
        exact absurd h (by simp)
    · exact absurd h (by simp)

theorem tokenPorts_mem {acc acc2 : List ℕ} {part : List Char}
    (h : tokenPorts acc part = some acc2) :
    ∀ q ∈ acc2, q ∈ acc ∨ (1 ≤ q ∧ q ≤ 65535) := by
  unfold tokenPorts at h
  split at h
  · split at h
    · rename_i a b heqa heqb
      split at h
      · exact absurd h (by simp)
      · rename_i hrange
        cases h
        intro q hq
        rcases (mem_foldl_setAdd _ _ _).mp hq with hacc | hr
        · exact .inl hacc
        · refine .inr ?_
          obtain ⟨i, hi, rfl⟩ := List.mem_range'.mp hr
          push_neg at hrange
          omega
    · exact absurd h (by simp)
  · split at h
    · rename_i x p heq
      by_cases hp : 1 ≤ p ∧ p ≤ 65535
      · rw [if_pos hp] at h
        cases h
        intro q hq
        rcases mem_setAdd.mp hq with hacc | rfl
        · exact .inl hacc
        · exact .inr (by omega)
      · rw [if_neg hp] at h
        exact absurd h (by simp)
    · exact absurd h (by simp)

theorem parseTokens_nodup :
    ∀ (ts : List (List Char)) (acc acc2 : List ℕ),
      parseTokens ts acc = some acc2 → acc.Nodup → acc2.Nodup := by
  intro ts
  induction ts with
  | nil => intro acc acc2 h hn; cases h; exact hn
  | cons t ts ih =>
    intro acc acc2 h hn
    unfold parseTokens at h
    split at h
    · exact ih _ _ h hn
    · split at h
      · exact absurd h (by simp)
      · next hsome => exact ih _ _ h (tokenPorts_nodup hsome hn)

theorem parseTokens_mem :
    ∀ (ts : List (List Char)) (acc acc2 : List ℕ),
      parseTokens ts acc = some acc2 →
      ∀ q ∈ acc2, q ∈ acc ∨ (1 ≤ q ∧ q ≤ 65535) := by
  intro ts
  induction ts with
  | nil => intro acc acc2 h q hq; cases h; exact .inl hq
  | cons t ts ih =>
    intro acc acc2 h q hq
    unfold parseTokens at h
    split at h
    · exact ih _ _ h q hq
    · split at h
      · exact absurd h (by simp)
      · next hsome =>
        rcases ih _ _ h q hq with hacc | hr
        · exact tokenPorts_mem hsome q hacc
        · exact .inr hr

/-- A token is invalid when the parser body rejects it; rejection does not
depend on the accumulator the token is folded into. -/
theorem tokenPorts_none (acc : List ℕ) (part : List Char) :
    tokenPorts acc part = none ↔ tokenPorts [] part = none := by
  unfold tokenPorts
  split
  · split
    · split <;> simp
    · simp
  · split
    · split <;> simp
    · simp

theorem parseTokens_none
    (ts : List (List Char))
    (h : ∃ t ∈ ts, pyStrip t ≠ [] ∧ tokenPorts [] (pyStrip t) = none) :
    ∀ acc : List ℕ, parseTokens ts acc = none := by
  induction ts with
  | nil => simp at h
  | cons t ts ih =>
    intro acc
    unfold parseTokens
    rcases h with ⟨u, hu, hne, hnone⟩
    rcases List.mem_cons.mp hu with rfl | hmem
    · simp only [if_neg hne]
      rw [(tokenPorts_none acc (pyStrip u)).mpr hnone]
    · split
      · exact ih ⟨u, hmem, hne, hnone⟩ acc
      · split
        · rfl
        · exact ih ⟨u, hmem, hne, hnone⟩ _

/-! Lemmas about the aggregation loop -/

theorem scanLoop_fst (target : String) :
    ∀ (l : List (ℕ × ProbeRes)) (opens : List ℕ) (results results2 : List OutcomeRow) (t t2 : ℕ),
      (scanLoop target l opens results t).1 = (scanLoop target l opens results2 t2).1 := by
  intro l
  induction l with
  | nil => intro opens results results2 t t2; rfl
  | cons a rest ih =>
    intro opens results results2 t t2
    obtain ⟨p, r⟩ := a
    simp only [scanLoop]
    apply ih

theorem scanLoop_fst_acc (target : String) :
    ∀ (l : List (ℕ × ProbeRes)) (opens : List ℕ) (results : List OutcomeRow) (t : ℕ),
      (scanLoop target l opens results t).1 = opens ++ (scanLoop target l [] [] t).1 := by
  intro l
  induction l with
  | nil => intro opens results t; simp [scanLoop]
  | cons a rest ih =>
    intro opens results t
    obtain ⟨p, r⟩ := a
    simp only [scanLoop]
    generalize (match r with
        | ProbeRes.ok port is_open => (port, if is_open = true then "open" else "closed")
        | ProbeRes.exn => (p, "closed")) = pr
    rw [ih (if pr.2 = "open" then opens ++ [pr.1] else opens)]
    rw [ih (if pr.2 = "open" then [] ++ [pr.1] else [])]
    split <;> simp

theorem scanLoop_append (target : String) :
    ∀ (l₁ l₂ : List (ℕ × ProbeRes)) (opens : List ℕ) (results : List OutcomeRow) (t : ℕ),
      scanLoop target (l₁ ++ l₂) opens results t
        = scanLoop target l₂ (scanLoop target l₁ opens results t).1
            (scanLoop target l₁ opens results t).2 (t + l₁.length) := by
  intro l₁
  induction l₁ with
  | nil => intro l₂ opens results t; simp [scanLoop]
  | cons a rest ih =>
    intro l₂ opens results t
    obtain ⟨p, r⟩ := a
    simp only [List.cons_append, scanLoop, List.append_eq]
    rw [ih]
    congr 1
    simp
    omega

theorem scanLoop_ports (target : String) :
    ∀ (l : List (ℕ × ProbeRes)) (opens : List ℕ) (results : List OutcomeRow) (t : ℕ),
      (scanLoop target l opens results t).2.map (fun row => row.port)
        = results.map (fun row => row.port) ++ l.map arrivalPort := by
  intro l
  induction l with
  | nil => intro opens results t; simp [scanLoop]
  | cons a rest ih =>
    intro opens results t
    obtain ⟨p, r⟩ := a
    simp only [scanLoop, ih]
    cases r <;> simp [arrivalPort]

theorem scanLoop_open_filter (target : String) :
    ∀ (l : List (ℕ × ProbeRes)) (opens : List ℕ) (results : List OutcomeRow) (t : ℕ),
      opens = (results.filter (fun row => row.status == "open")).map (fun row => row.port) →
      (scanLoop target l opens results t).1
        = ((scanLoop target l opens results t).2.filter
            (fun row => row.status == "open")).map (fun row => row.port) := by
  intro l
  induction l with
  | nil =>
    intro opens results t h
    simpa [scanLoop] using h
  | cons a rest ih =>
    intro opens results t h
    obtain ⟨p, r⟩ := a
    simp only [scanLoop]
    apply ih
    rw [List.filter_append, List.map_append, ← h]
    cases r with
    | ok q b => cases b <;> simp
    | exn => simp

/-! The claims -/

/-- C3: for every valid port specification string, `parse_ports_input`
returns a strictly ascending sequence with no duplicates in which every
port `p` satisfies `1 ≤ p ≤ 65535`; in particular
`parse_ports_input "22,80,8000-8002"` returns `[22, 80, 8000, 8001, 8002]`. -/
theorem claim_C3 :
    (∀ (spec : String) (l : List ℕ), parse_ports_input spec = some l →
      l.Sorted (· < ·) ∧ ∀ p ∈ l, 1 ≤ p ∧ p ≤ 65535) ∧
    parse_ports_input "22,80,8000-8002" = some [22, 80, 8000, 8001, 8002] := by
  constructor
  · intro spec l h
    unfold parse_ports_input at h
    split at h
    · exact absurd h (by simp)
    · obtain ⟨acc, hacc, rfl⟩ := Option.map_eq_some'.mp h
      have hnd : acc.Nodup := parseTokens_nodup _ _ _ hacc List.nodup_nil
      have hperm := List.perm_insertionSort (fun a b : ℕ => a ≤ b) acc
      constructor
      · exact List.Sorted.lt_of_le (List.sorted_insertionSort _ acc)
          (hperm.nodup_iff.mpr hnd)
      · intro p hp
        rcases parseTokens_mem _ _ _ hacc p (hperm.mem_iff.mp hp) with h0 | h0
        · cases h0
        · exact h0
  · decide

/-- C3 witness: the general statement applied to the concrete spec
`"22,80,8000-8002"`. -/
theorem claim_C3_witness :
    ([22, 80, 8000, 8001, 8002] : List ℕ).Sorted (· < ·) ∧
    ∀ p ∈ ([22, 80, 8000, 8001, 8002] : List ℕ), 1 ≤ p ∧ p ≤ 65535 :=
  claim_C3.1 "22,80,8000-8002" [22, 80, 8000, 8001, 8002] (by decide)

/-- C4: a specification containing any invalid token — one the token
parser rejects as malformed, out of range or an inverted range — is
rejected as a whole (`None`), with no partial acceptance; the empty
input is also invalid. -/
theorem claim_C4 :
    (∀ spec : String,
      (∃ t ∈ splitList ',' spec.data, pyStrip t ≠ [] ∧ tokenPorts [] (pyStrip t) = none) →
      parse_ports_input spec = none) ∧
    parse_ports_input "" = none := by
  constructor
  · intro spec hex
    unfold parse_ports_input
    split
    · rfl
    · rw [parseTokens_none _ hex]
      rfl
  · rfl

/-- C4 witness: `"22,abc"` contains the malformed token `"abc"`, so the
whole spec is rejected even though `"22"` alone would be valid. -/
theorem claim_C4_witness : parse_ports_input "22,abc" = none :=
  claim_C4.1 "22,abc" (by decide)

/-- C10: tokens that are empty after stripping are skipped, so a token
list parses identically once such tokens are removed (commas may lead,
trail or repeat without effect), and a non-empty spec consisting only of
empty tokens, such as `","`, parses to the empty list rather than failing. -/
theorem claim_C10 :
    (∀ (ts : List (List Char)) (acc : List ℕ),
      parseTokens (ts.filter (fun u => !(pyStrip u).isEmpty)) acc = parseTokens ts acc) ∧
    parse_ports_input "," = some [] ∧
    parse_ports_input ",22,,80," = parse_ports_input "22,80" := by
  refine ⟨?_, by decide, by decide⟩
  intro ts
  induction ts with
  | nil => intro acc; rfl
  | cons t ts ih =>
    intro acc
    by_cases hE : pyStrip t = []
    · rw [show parseTokens (t :: ts) acc = parseTokens ts acc from by
        simp only [parseTokens]; rw [if_pos hE]]
      rw [show (t :: ts).filter (fun u => !(pyStrip u).isEmpty)
            = ts.filter (fun u => !(pyStrip u).isEmpty) from by
        simp [List.filter_cons, hE]]
      exact ih acc
    · rw [show (t :: ts).filter (fun u => !(pyStrip u).isEmpty)
            = t :: ts.filter (fun u => !(pyStrip u).isEmpty) from by
        simp [List.filter_cons, hE]]
      simp only [parseTokens]
      rw [if_neg hE, if_neg hE]
      cases h2 : tokenPorts acc (pyStrip t) with
      | none => rfl
      | some acc2 => exact ih acc2

/-- C2: the connect probe is total — whatever the network does (any error
code or any raised exception), `scan_port` returns a pair, never a
propagated failure; the pair names the probed port, and it reports open
exactly when `connect_ex` returned `0`, closed on every failure. -/
theorem claim_C2 (net : Net) (host_ip : String) (port : ℕ) (timeout : ℚ) :
    (scan_port net host_ip port timeout).1 = port ∧
    ((scan_port net host_ip port timeout).2 = true ↔
      net.connect host_ip port timeout = ConnectResult.code 0) := by
  unfold scan_port
  cases h : net.connect host_ip port timeout with
  | code n => simp [h]
  | exn => simp [h]

/-- C5: when the configured thread count is at least `1` and the port set
non-empty, the worker-pool bound `max_workers` handed to the executor
equals `min(threads, |ports|)`. -/
theorem claim_C5 (threads : ℕ) (ports : List ℕ)
    (h1 : 1 ≤ threads) (hne : ports ≠ []) :
    max_workers threads ports.length = min threads ports.length := by
  unfold max_workers
  omega

/-- C5 witness: 100 configured threads over 3 ports bound the pool by
`min 100 3`. -/
theorem claim_C5_witness :
    max_workers 100 ([22, 80, 443] : List ℕ).length
      = min 100 ([22, 80, 443] : List ℕ).length :=
  claim_C5 100 [22, 80, 443] (by decide) (by decide)

/-- C6: with an empty port list, `run_scan` returns the empty report at
once — no open ports, no outcomes, no save — whatever the environment
would have delivered (no pool is consulted, no probe invoked). -/
theorem claim_C6 (env : ScanEnv) (target : String) (threads : ℕ)
    (timeout : ℚ) (save_path : Option String) :
    run_scan env target [] threads timeout save_path = ⟨[], [], none⟩ :=
  rfl

/-- C1 counterexample: with both probed ports open but the completion for
port 80 arriving before the one for port 22, the returned open-port list
is `[80, 22]`, which is not the sorted set `[22, 80]` of ports open in the
outcome sequence — the claim fails for this arrival order. -/
theorem claim_C1_cex :
    ¬ ((run_scan ⟨[(80, .ok 80 true), (22, .ok 22 true)], none, true⟩
          "host" [22, 80] 2 1 none).open_ports
        = List.insertionSort (· ≤ ·)
            ((((run_scan ⟨[(80, .ok 80 true), (22, .ok 22 true)], none, true⟩
                "host" [22, 80] 2 1 none).results.filter
                  (fun row => row.status == "open")).map (fun row => row.port)).dedup)) := by
  decide

/-- C1 amended: the open-port list returned by `run_scan` is the ports
whose outcome is open within the outcome sequence, in arrival order — so
it equals the open ports of `outcomes` as a set, but it is not sorted
unless the open completions happen to arrive in ascending port order. -/
theorem claim_C1 (env : ScanEnv) (target : String) (ports : List ℕ)
    (threads : ℕ) (timeout : ℚ) (save_path : Option String) :
    (run_scan env target ports threads timeout save_path).open_ports
      = ((run_scan env target ports threads timeout save_path).results.filter
          (fun row => row.status == "open")).map (fun row => row.port) := by
  unfold run_scan
  split
  · rfl
  · split
    · exact scanLoop_open_filter target _ [] [] 0 rfl
    · exact scanLoop_open_filter target _ [] [] 0 rfl

/-- C7: on natural completion (no interrupt), with `as_completed`
delivering each submitted future exactly once and each future reporting
its own port, the ports of the outcome sequence are a permutation of the
submitted ports — nothing lost, nothing duplicated — and for distinct
submitted ports each appears exactly once. -/
theorem claim_C7 (env : ScanEnv) (target : String) (ports : List ℕ)
    (threads : ℕ) (timeout : ℚ) (save_path : Option String)
    (hnat : env.interrupt = none) (hf : FaithfulArrivals ports env.arrivals) :
    List.Perm ((run_scan env target ports threads timeout save_path).results.map
      (fun row => row.port)) ports ∧
    (ports.Nodup → ∀ p ∈ ports,
      ((run_scan env target ports threads timeout save_path).results.map
        (fun row => row.port)).count p = 1) := by
  obtain ⟨hperm, hfaith⟩ := hf
  have hmap : env.arrivals.map arrivalPort = env.arrivals.map Prod.fst :=
    List.map_congr_left hfaith
  have hres : (run_scan env target ports threads timeout save_path).results.map
      (fun row => row.port) = env.arrivals.map arrivalPort := by
    unfold run_scan
    split
    · rename_i hP
      have h0 : env.arrivals = [] :=
        List.map_eq_nil_iff.mp (List.Perm.eq_nil (hP ▸ hperm))
      simp [h0]
    · rw [hnat]
      simpa using scanLoop_ports target env.arrivals [] [] 0
  constructor
  · rw [hres, hmap]
    exact hperm
  · intro hnd p hp
    rw [hres, hmap, List.Perm.count_eq hperm]
    exact List.count_eq_one_of_mem hnd hp

/-- C7 witness: two ports, completions arriving in the reverse order, one
of them closed: the outcome sequence still names each port exactly once. -/
theorem claim_C7_witness :
    List.Perm ((run_scan ⟨[(80, .ok 80 false), (22, .ok 22 true)], none, true⟩
        "host" [22, 80] 2 1 none).results.map (fun row => row.port)) [22, 80] ∧
    (([22, 80] : List ℕ).Nodup → ∀ p ∈ ([22, 80] : List ℕ),
      ((run_scan ⟨[(80, .ok 80 false), (22, .ok 22 true)], none, true⟩
          "host" [22, 80] 2 1 none).results.map (fun row => row.port)).count p = 1) :=
  claim_C7 ⟨[(80, .ok 80 false), (22, .ok 22 true)], none, true⟩ "host" [22, 80] 2 1 none
    rfl ⟨List.Perm.swap 22 80 [], by decide⟩

/-- C8: a `KeyboardInterrupt` after `k` completions makes `run_scan`
return — not raise — with exactly the open ports collected from those
first `k` completions (a prefix of what the uninterrupted run would have
returned, the remaining arrivals contributing the rest), and nothing is
saved. -/
theorem claim_C8 (env : ScanEnv) (target : String) (ports : List ℕ)
    (threads : ℕ) (timeout : ℚ) (save_path : Option String) (k : ℕ)
    (hint : env.interrupt = some k) (hne : ports ≠ []) :
    (run_scan env target ports threads timeout save_path).open_ports
      = opensOf target (env.arrivals.take k) ∧
    (run_scan { env with interrupt := none } target ports threads timeout save_path).open_ports
      = opensOf target (env.arrivals.take k) ++ opensOf target (env.arrivals.drop k) ∧
    (run_scan env target ports threads timeout save_path).save = none := by
  refine ⟨?_, ?_, ?_⟩
  · unfold run_scan
    rw [if_neg hne, hint]
    rfl
  · unfold run_scan
    rw [if_neg hne]
    show (scanLoop target env.arrivals [] [] 0).1 = _
    conv_lhs => rw [← List.take_append_drop k env.arrivals]
    rw [scanLoop_append, scanLoop_fst_acc]
    unfold opensOf
    congr 1
    apply scanLoop_fst
  · unfold run_scan
    rw [if_neg hne, hint]

/-- C8 witness: interrupting after the first of two completions returns
the open ports of that completion alone, and the full run's list extends
it. -/
theorem claim_C8_witness :
    (run_scan ⟨[(22, .ok 22 true), (80, .ok 80 true)], some 1, true⟩
        "host" [22, 80] 2 1 none).open_ports
      = opensOf "host" (([(22, .ok 22 true), (80, .ok 80 true)] :
          List (ℕ × ProbeRes)).take 1) ∧
    (run_scan ⟨[(22, .ok 22 true), (80, .ok 80 true)], none, true⟩
        "host" [22, 80] 2 1 none).open_ports
      = opensOf "host" (([(22, .ok 22 true), (80, .ok 80 true)] :
          List (ℕ × ProbeRes)).take 1)
        ++ opensOf "host" (([(22, .ok 22 true), (80, .ok 80 true)] :
          List (ℕ × ProbeRes)).drop 1) ∧
    (run_scan ⟨[(22, .ok 22 true), (80, .ok 80 true)], some 1, true⟩
        "host" [22, 80] 2 1 none).save = none :=
  claim_C8 ⟨[(22, .ok 22 true), (80, .ok 80 true)], some 1, true⟩
    "host" [22, 80] 2 1 none 1 rfl (by decide)

/-- C9: when writing the output file fails, `run_scan` reports the
failure in place of the save, but the in-memory results and the returned
open-port list are exactly those of the run whose save succeeded. -/
theorem claim_C9 (env : ScanEnv) (target : String) (ports : List ℕ)
    (threads : ℕ) (timeout : ℚ) (path : String)
    (hnat : env.interrupt = none) (hne : ports ≠ []) :
    (run_scan { env with writeOk := false } target ports threads timeout (some path)).open_ports
      = (run_scan { env with writeOk := true } target ports threads timeout (some path)).open_ports ∧
    (run_scan { env with writeOk := false } target ports threads timeout (some path)).results
      = (run_scan { env with writeOk := true } target ports threads timeout (some path)).results ∧
    (run_scan { env with writeOk := false } target ports threads timeout (some path)).save
      = some (SaveOutcome.failed path) ∧
    (run_scan { env with writeOk := true } target ports threads timeout (some path)).save
      = some (SaveOutcome.saved path
          (run_scan { env with writeOk := true } target ports threads timeout (some path)).results) := by
  unfold run_scan
  simp only [if_neg hne, hnat]
  refine ⟨trivial, trivial, rfl, rfl⟩

/-- C9 witness: a concrete two-port run whose save fails still returns
the very open ports and outcome rows of the successful-save run, and
reports the failed path. -/
theorem claim_C9_witness :
    (run_scan ⟨[(22, .ok 22 true), (80, .ok 80 false)], none, false⟩
        "host" [22, 80] 2 1 (some "out.csv")).open_ports
      = (run_scan ⟨[(22, .ok 22 true), (80, .ok 80 false)], none, true⟩
          "host" [22, 80] 2 1 (some "out.csv")).open_ports ∧
    (run_scan ⟨[(22, .ok 22 true), (80, .ok 80 false)], none, false⟩
        "host" [22, 80] 2 1 (some "out.csv")).results
      = (run_scan ⟨[(22, .ok 22 true), (80, .ok 80 false)], none, true⟩
          "host" [22, 80] 2 1 (some "out.csv")).results ∧
    (run_scan ⟨[(22, .ok 22 true), (80, .ok 80 false)], none, false⟩
        "host" [22, 80] 2 1 (some "out.csv")).save
      = some (SaveOutcome.failed "out.csv") ∧
    (run_scan ⟨[(22, .ok 22 true), (80, .ok 80 false)], none, true⟩
        "host" [22, 80] 2 1 (some "out.csv")).save
      = some (SaveOutcome.saved "out.csv"
          (run_scan ⟨[(22, .ok 22 true), (80, .ok 80 false)], none, true⟩
            "host" [22, 80] 2 1 (some "out.csv")).results) :=
  claim_C9 ⟨[(22, .ok 22 true), (80, .ok 80 false)], none, true⟩
    "host" [22, 80] 2 1 "out.csv" rfl (by decide)

end PortScanner

